import Mathlib

/-!
Verification model of the particle simulation engine of this repository
(src/components/Swarm.tsx, main version, together with the constants module it
imports).  All numeric state is modelled with rationals.  The transcendental
library functions (Math.sin, Math.cos, Math.sqrt, Math.atan2, Math.PI) are
abstracted as an oracle record MathOps, and Math.random is modelled as an
explicit stream of rationals consumed in program order, so that every
definition stays executable.  Rendering (instance matrices, colors) and audio
are outside the modelled core and are dropped; every state mutation and every
engine callback (onProgress, onActiveCount, onLevelComplete, setFuel) is kept.
-/

namespace Swarm

/-- JS math primitives used by the engine, abstracted as an oracle record. -/
structure MathOps where
  sin : ℚ → ℚ
  cos : ℚ → ℚ
  sqrt : ℚ → ℚ
  atan2 : ℚ → ℚ → ℚ
  pi : ℚ

/-- Oracle in which every primitive returns 0; used to instantiate theorems
whose statements do not depend on the oracle values. -/
def zeroOps : MathOps :=
  { sin := fun _ => 0, cos := fun _ => 0, sqrt := fun _ => 0,
    atan2 := fun _ _ => 0, pi := 0 }

def PARTICLE_COUNT : ℕ := 4000
def GRAVITY_STRENGTH : ℚ := 0.05
def PATH_FLOW_FORCE : ℚ := 0.08
def FRICTION : ℚ := 0.96
def MAX_SPEED : ℚ := 0.45
def EMITTER_RATE : ℚ := 20
def ARENA_BOUNDS_X : ℚ := 13
def ARENA_BOUNDS_Y : ℚ := 6.5

def TRAIT_NORMAL : ℤ := 0
def TRAIT_TITAN : ℤ := 1
def TRAIT_ROGUE : ℤ := 2
def TRAIT_SPARK : ℤ := 3
def TRAIT_GHOST : ℤ := 4
def TRAIT_WEAVER : ℤ := 5

inductive ObstacleType
  | static
  | blackhole
  | pulsar
  | debris
deriving DecidableEq, Repr

inductive ObstacleBehavior
  | static
  | orbit
  | patrolX
  | patrolY
  | wander
deriving DecidableEq, Repr

inductive AnomalyType
  | repulsor
  | void
  | spirit
  | pulse
  | hazard
deriving DecidableEq, Repr

/-- Rectangular wall; only the x/y components of the source's 3D position and
size triples are read by the engine. -/
structure Wall where
  posX : ℚ
  posY : ℚ
  sizeW : ℚ
  sizeH : ℚ
  rotation : ℚ
deriving DecidableEq, Repr

structure Portal where
  posX : ℚ
  posY : ℚ
  targetX : ℚ
  targetY : ℚ
deriving DecidableEq, Repr

structure Charger where
  posX : ℚ
  posY : ℚ
  radius : ℚ
deriving DecidableEq, Repr

structure Anomaly where
  posX : ℚ
  posY : ℚ
  radius : ℚ
  isActive : Bool
  type : AnomalyType
deriving DecidableEq, Repr

/-- Level geometry, after types.ts LevelConfig; optional fields are Option,
matching the possibly-undefined fields of the source interface. -/
structure LevelConfig where
  id : ℤ
  emitterX : ℚ
  emitterY : ℚ
  targetX : ℚ
  targetY : ℚ
  targetRadius : ℚ
  obstaclePos : Option (List (ℚ × ℚ))
  obstacleRadius : Option ℚ
  obstacleTypes : Option (List ObstacleType)
  obstacleBehaviors : Option (List ObstacleBehavior)
  walls : Option (List Wall)
  portals : Option (List Portal)
  chargers : Option (List Charger)
  conversionRequired : Option Bool
  requiredCount : ℕ
  particleBudget : Option ℚ
  isBossLevel : Option Bool
deriving DecidableEq, Repr

structure SandboxSettings where
  gravityMult : ℚ
  speedMult : ℚ
  timeScale : ℚ
  rainbowMode : Bool
  giantMode : Bool
  infiniteAmmo : Bool
  symmetry : Bool
  mouseAttractor : Bool
  invincibility : Bool
  hyperTrails : Bool
deriving DecidableEq, Repr

/-- One slot of the struct-of-arrays agent store: the per-index entries of the
positions/velocities/life/ages/traits/deathTimer/chargeState/teleportTimer
arrays, gathered as one record. -/
structure Slot where
  posX : ℚ
  posY : ℚ
  velX : ℚ
  velY : ℚ
  life : ℚ
  age : ℚ
  trait : ℤ
  deathTimer : ℚ
  charge : ℤ
  teleportTimer : ℚ
deriving DecidableEq, Repr

/-- Slot contents written by the reset effect: hidden offscreen, fully cleared. -/
def freshSlot : Slot :=
  { posX := -9999, posY := -9999, velX := 0, velY := 0, life := 0, age := 0,
    trait := TRAIT_NORMAL, deathTimer := 0, charge := 0, teleportTimer := 0 }

/-- Trait roll of the emission loop: one uniform draw mapped through strict
cumulative thresholds. -/
def traitOf (rand : ℚ) : ℤ :=
  if rand > 0.985 then TRAIT_TITAN
  else if rand > 0.94 then TRAIT_SPARK
  else if rand > 0.90 then TRAIT_ROGUE
  else if rand > 0.85 then TRAIT_GHOST
  else if rand > 0.80 then TRAIT_WEAVER
  else TRAIT_NORMAL

/-- Spawning one agent into a free slot; consumes five random draws in program
order (trait roll, position jitter x/y, velocity jitter x/y) and returns the
next stream index. -/
def spawnSlot (cfg : LevelConfig) (rng : ℕ → ℚ) (k : ℕ) : Slot × ℕ :=
  let rand := rng k
  let trait := traitOf rand
  let px := cfg.emitterX + (rng (k+1) - 0.5) * 0.2
  let py := cfg.emitterY + (rng (k+2) - 0.5) * 0.2
  let speedMult : ℚ := if trait = TRAIT_SPARK then 0.3
    else if trait = TRAIT_TITAN then 0.05 else 0.1
  let vx := (rng (k+3) - 0.5) * speedMult
  let vy := (rng (k+4) - 0.5) * speedMult
  ({ posX := px, posY := py, velX := vx, velY := vy, life := 1, age := 0,
     trait := trait, deathTimer := 0, charge := 0, teleportTimer := 0 }, k + 5)

/-- A slot is free for reuse exactly when the emission scan spawns into it. -/
def isFree (s : Slot) : Prop := s.life ≤ 0 ∧ s.deathTimer = 0

instance (s : Slot) : Decidable (isFree s) := by
  unfold isFree; infer_instance

/-- Emission scan over the slot array: spawn into free slots until the scaled
emitter rate is reached, decrementing fuel per spawn when the budget is finite.
Returns the updated slots, the number spawned, the remaining fuel and the next
random-stream index. -/
def emitLoop (cfg : LevelConfig) (isInfinite : Bool) (scaledRate : ℚ)
    (rng : ℕ → ℚ) :
    List Slot → ℕ → ℚ → ℕ → List Slot × ℕ × ℚ × ℕ
  | [], spawned, fuel, k => ([], spawned, fuel, k)
  | s :: rest, spawned, fuel, k =>
    if (spawned : ℚ) ≥ scaledRate then (s :: rest, spawned, fuel, k)
    else if isFree s then
      let sk := spawnSlot cfg rng k
      let fuel2 := if isInfinite then fuel else fuel - 1
      let r := emitLoop cfg isInfinite scaledRate rng rest (spawned+1) fuel2 sk.2
      (sk.1 :: r.1, r.2)
    else
      let r := emitLoop cfg isInfinite scaledRate rng rest spawned fuel k
      (s :: r.1, r.2)

/-- Whether the level has a finite budget and the infinite-ammo toggle is off;
when false, fuel is infinite and spawns are free. -/
def isInfiniteFuel (cfg : LevelConfig) (sb : SandboxSettings) : Bool :=
  !cfg.particleBudget.isSome || sb.infiniteAmmo

/-- Emission phase of one tick: the gate is evaluated once, before the scan. -/
def emission (cfg : LevelConfig) (sb : SandboxSettings) (timeScale : ℚ)
    (rng : ℕ → ℚ) (slots : List Slot) (fuel : ℚ) :
    List Slot × ℕ × ℚ × ℕ :=
  let isInfinite := isInfiniteFuel cfg sb
  let shouldEmit := isInfinite || decide (fuel > 0)
  let scaledRate := EMITTER_RATE * timeScale
  if shouldEmit then emitLoop cfg isInfinite scaledRate rng slots 0 fuel 0
  else (slots, 0, fuel, 0)

/-- Truncation toward zero, as JS integer conversion in the remainder
operator. -/
def ratTrunc (q : ℚ) : ℤ := if 0 ≤ q then ⌊q⌋ else ⌈q⌉

/-- JS remainder operator on numbers (sign follows the dividend); division by
zero is not reached by the modelled claims and is mapped to 0. -/
def jsMod (a b : ℚ) : ℚ := if b = 0 then 0 else a - b * ratTrunc (a / b)

/-- Obstacle position recomputed each tick from the declared motion behavior,
from the constants module. -/
def getObstaclePos (M : MathOps) (basePos : ℚ × ℚ)
    (behavior : Option ObstacleBehavior) (t : ℚ) (seed : ℚ) : ℚ × ℚ :=
  match behavior with
  | none => basePos
  | some .static => basePos
  | some .orbit =>
      (basePos.1 + M.cos (t * 0.8 + seed) * 2.5,
       basePos.2 + M.sin (t * 0.8 + seed) * 2.5)
  | some .patrolX => (basePos.1 + M.sin (t * 0.8 + seed) * 3.0, basePos.2)
  | some .patrolY => (basePos.1, basePos.2 + M.sin (t * 0.8 + seed) * 2.0)
  | some .wander =>
      (basePos.1 + M.sin (t * 0.3 + seed) * 2,
       basePos.2 + M.cos (t * 0.4 + seed) * 2)

/-- Deterministic smooth turbulence function of the engine. -/
def noiseFn (M : MathOps) (x y z : ℚ) : ℚ :=
  M.sin (x * 0.5 + z) * M.cos (y * 0.5 + z)

/-- Per-tick environment of the per-agent loop: external inputs together with
the values the tick computes once before iterating the slots. -/
structure LoopEnv where
  M : MathOps
  cfg : LevelConfig
  sb : SandboxSettings
  paths : List (List (ℚ × ℚ))
  anomalies : List Anomaly
  isDrawing : Bool
  mouseX : ℚ
  mouseY : ℚ
  elapsedTime : ℚ
  timeScale : ℚ
  dt : ℚ
  rng : ℕ → ℚ
  gravityForce : ℚ
  flowForce : ℚ
  baseMaxSpeed : ℚ
  checkBoss : Bool
  bossAngleStart : ℚ
  bossKillDist : ℚ

/-- Charger pass: inside any charge zone the agent becomes charged. -/
def chargerStep (chargers : List Charger) (x y : ℚ) (charge : ℤ) : ℤ :=
  chargers.foldl
    (fun c charger =>
      let cdx := x - charger.posX
      let cdy := y - charger.posY
      if cdx * cdx + cdy * cdy < charger.radius * charger.radius then 1 else c)
    charge

/-- Boss hazard sector test: true when the agent is killed by the rotating
sector this tick. -/
def bossKills (env : LoopEnv) (x y : ℚ) : Bool :=
  let dxTarget := x - env.cfg.targetX
  let dyTarget := y - env.cfg.targetY
  let distToTarget := env.M.sqrt (dxTarget * dxTarget + dyTarget * dyTarget)
  if distToTarget < env.bossKillDist ∧ distToTarget > 1.6 then
    let cosR := env.M.cos (-env.bossAngleStart)
    let sinR := env.M.sin (-env.bossAngleStart)
    let localX := dxTarget * cosR - dyTarget * sinR
    let localY := dxTarget * sinR + dyTarget * cosR
    let localAngle := env.M.atan2 localY localX
    decide (localAngle > 0 ∧ localAngle < 2.0)
  else false

/-- Titan gravity: scan the titan indices collected so far, remember the
nearest within range, and pull toward it. -/
def titanStep (M : MathOps) (slotsNow : List Slot) (titans : List ℕ)
    (x y vx vy : ℚ) : ℚ × ℚ :=
  let scan := titans.foldl
    (fun (acc : ℚ × ℚ × ℚ) tid =>
      let t := slotsNow.getD tid freshSlot
      let tdx := t.posX - x
      let tdy := t.posY - y
      let distSq := tdx * tdx + tdy * tdy
      if distSq < 4.0 ∧ distSq < acc.1 then (distSq, tdx, tdy) else acc)
    (999, 0, 0)
  if scan.1 < 4.0 then
    let dist := M.sqrt scan.1
    (vx + scan.2.1 / dist * 0.01, vy + scan.2.2 / dist * 0.01)
  else (vx, vy)

/-- Anomaly pass: each active hazard in range applies its force or marks the
agent for explosion; a kill skips only that anomaly's force, not the rest of
the agent's update. -/
def anomalyStep (M : MathOps) (sb : SandboxSettings) (anomalies : List Anomaly)
    (x y : ℚ) (vx vy timer : ℚ) : ℚ × ℚ × ℚ :=
  anomalies.foldl
    (fun (acc : ℚ × ℚ × ℚ) anomaly =>
      let vx := acc.1
      let vy := acc.2.1
      let timer := acc.2.2
      if anomaly.isActive then
        let adx := x - anomaly.posX
        let ady := y - anomaly.posY
        let adistSq := adx * adx + ady * ady
        let interactRadius :=
          if anomaly.type = AnomalyType.pulse then anomaly.radius
          else anomaly.radius * 2
        if adistSq < interactRadius * interactRadius then
          let adist := M.sqrt adistSq
          if anomaly.type = AnomalyType.void ∨ anomaly.type = AnomalyType.hazard then
            if ¬sb.invincibility then
              if anomaly.type = AnomalyType.hazard ∨ adistSq < 0.25 then
                (vx, vy, 1.0)
              else
                let force := 0.5 * (1 - adist / anomaly.radius)
                let vx := vx - adx / adist * force
                let vy := vy - ady / adist * force
                if anomaly.type = AnomalyType.void then
                  let swirlX := -ady / adist
                  let swirlY := adx / adist
                  (vx + swirlX * 0.5, vy + swirlY * 0.5, timer)
                else (vx, vy, timer)
            else (vx, vy, timer)
          else if anomaly.type = AnomalyType.pulse then
            if ¬sb.invincibility then
              let force := 2.0 * (1 - adist / interactRadius)
              (vx + adx / adist * force, vy + ady / adist * force, timer)
            else (vx, vy, timer)
          else if anomaly.type = AnomalyType.spirit then
            (vx - adx / adist * 0.05, vy - ady / adist * 0.05, timer)
          else
            (vx + adx / adist * 0.3, vy + ady / adist * 0.3, timer)
        else (vx, vy, timer)
      else (vx, vy, timer))
    (vx, vy, timer)

/-- Scan of one polyline with stride 2, carrying the global best candidate as
(path index, point index, squared distance); a new point wins only with a
strictly smaller squared distance. -/
def closestScanPath (x y : ℚ) (pathIdx : ℕ) :
    List (ℚ × ℚ) → ℕ → Option (ℕ × ℕ × ℚ) → Option (ℕ × ℕ × ℚ)
  | [], _, best => best
  | [p], pIdx, best =>
    let dSq := (x - p.1) * (x - p.1) + (y - p.2) * (y - p.2)
    let keep := match best with
      | none => true
      | some b => decide (dSq < b.2.2)
    if keep then some (pathIdx, pIdx, dSq) else best
  | p :: _ :: rest, pIdx, best =>
    let dSq := (x - p.1) * (x - p.1) + (y - p.2) * (y - p.2)
    let keep := match best with
      | none => true
      | some b => decide (dSq < b.2.2)
    let best2 := if keep then some (pathIdx, pIdx, dSq) else best
    closestScanPath x y pathIdx rest (pIdx + 2) best2

/-- Scan of all drawn polylines in draw order, skipping polylines with fewer
than two points. -/
def closestPathScan (x y : ℚ) :
    List (List (ℚ × ℚ)) → ℕ → Option (ℕ × ℕ × ℚ) → Option (ℕ × ℕ × ℚ)
  | [], _, best => best
  | path :: rest, pathIdx, best =>
    let best2 := if path.length < 2 then best
      else closestScanPath x y pathIdx path 0 best
    closestPathScan x y rest (pathIdx + 1) best2

/-- Nearest sampled polyline point across all drawn paths, as the forward scan
of the engine computes it. -/
def closestPathPoint (x y : ℚ) (paths : List (List (ℚ × ℚ))) :
    Option (ℕ × ℕ × ℚ) :=
  closestPathScan x y paths 0 none

/-- Path attraction and flow pass; consumes one random draw only when a Rogue
rolls its follow factor. -/
def pathStep (env : LoopEnv) (trait : ℤ) (age : ℚ) (weight : ℚ) (x y : ℚ)
    (vx vy : ℚ) (k : ℕ) : ℚ × ℚ × ℕ :=
  if env.paths.length > 0 then
    match closestPathPoint x y env.paths with
    | none => (vx, vy, k)
    | some best =>
      if best.2.2 < 4.0 then
        let path := env.paths.getD best.1 []
        let pt := path.getD best.2.1 (0, 0)
        let dx := pt.1 - x
        let dy := pt.2 - y
        let ffk : ℚ × ℕ :=
          if trait = TRAIT_ROGUE then
            (if env.rng k > 0.8 then -0.5 else 1.0, k + 1)
          else (1.0, k)
        let followFactor := ffk.1
        let k := ffk.2
        let ageGravityMult : ℚ :=
          if age > 0.8 then 1.5 else if age < 0.2 then 0.5 else 1.0
        let vx := vx + dx * env.gravityForce * 3.0 * ageGravityMult * weight * followFactor
        let vy := vy + dy * env.gravityForce * 3.0 * ageGravityMult * weight * followFactor
        let vx := vx * 0.9
        let vy := vy * 0.9
        if best.2.1 < path.length - 2 then
          let nextP := path.getD (best.2.1 + 2) (0, 0)
          let dirX := nextP.1 - pt.1
          let dirY := nextP.2 - pt.2
          let len0 := env.M.sqrt (dirX * dirX + dirY * dirY)
          let len := if len0 = 0 then 1 else len0
          (vx + dirX / len * env.flowForce * weight * followFactor,
           vy + dirY / len * env.flowForce * weight * followFactor, k)
        else (vx, vy, k)
      else (vx, vy, k)
  else (vx, vy, k)

/-- Read one obstacle's mass counter; out-of-range entries read as 0 through
the source's fallback guard. -/
def getMass (l : List ℚ) (o : ℕ) : ℚ := l.getD o 0

/-- Write one obstacle's mass counter; a JS write past the end extends the
array, and the holes read back as 0 through the fallback guard. -/
def setMass (l : List ℚ) (o : ℕ) (v : ℚ) : List ℚ :=
  if o < l.length then l.set o v
  else l ++ List.replicate (o - l.length) 0 ++ [v]

/-- Result of the obstacle pass for one agent. -/
structure ObsRes where
  vx : ℚ
  vy : ℚ
  a : Slot
  masses : List ℚ
deriving Repr

/-- Obstacle pass body: black holes pull, swirl and capture (incrementing
their mass and assigning an escape velocity), pulsars push periodically, all
other kinds kill on contact unless invincible; a lethal event leaves the
remaining obstacles unvisited. -/
def obstacleLoop (M : MathOps) (behaviors : Option (List ObstacleBehavior))
    (types : Option (List ObstacleType)) (radius : Option ℚ)
    (invincibility : Bool) (elapsedTime : ℚ) (x y : ℚ) :
    List (ℚ × ℚ) → ℕ → ℚ → ℚ → Slot → List ℚ → ObsRes
  | [], _, vx, vy, a, masses => ⟨vx, vy, a, masses⟩
  | basePos :: rest, o, vx, vy, a, masses =>
    let behavior := behaviors.bind (fun l => l.get? o)
    let obsPos := getObstaclePos M basePos behavior elapsedTime ((o : ℚ) * 100)
    let type := types.bind (fun l => l.get? o)
    let dx := x - obsPos.1
    let dy := y - obsPos.2
    let distSq := dx * dx + dy * dy
    let rad : ℚ := match radius with
      | none => 1.0
      | some r => if r = 0 then 1.0 else r
    let collisionRad := rad * 0.7
    if type = some ObstacleType.blackhole then
      let pullRange := rad * 2.5
      let killRad := rad * 0.6
      if distSq < pullRange * pullRange then
        let dist := M.sqrt distSq
        let swirlX := -dy / dist
        let swirlY := dx / dist
        let swirlForce := 0.35 * (1 - dist / pullRange)
        let force := 0.08 * (1 - dist / pullRange)
        let vx := vx - dx / dist * force
        let vy := vy - dy / dist * force
        let vx := vx + swirlX * swirlForce
        let vy := vy + swirlY * swirlForce
        if ¬invincibility ∧ distSq < killRad * killRad then
          ⟨vx, vy,
           { a with deathTimer := -1.0, velX := dx / dist * 2.0,
                    velY := dy / dist * 2.0 },
           setMass masses o (getMass masses o + 1)⟩
        else obstacleLoop M behaviors types radius invincibility elapsedTime
          x y rest (o + 1) vx vy a masses
      else obstacleLoop M behaviors types radius invincibility elapsedTime
        x y rest (o + 1) vx vy a masses
    else if type = some ObstacleType.pulsar then
      let pulseRad := rad * (1 + M.sin (elapsedTime * 2 + (o : ℚ)) * 0.4)
      if distSq < pulseRad * pulseRad then
        let dist := M.sqrt distSq
        obstacleLoop M behaviors types radius invincibility elapsedTime
          x y rest (o + 1) (vx + dx / dist * 0.3) (vy + dy / dist * 0.3) a masses
      else obstacleLoop M behaviors types radius invincibility elapsedTime
        x y rest (o + 1) vx vy a masses
    else
      if distSq < collisionRad * collisionRad then
        if invincibility then obstacleLoop M behaviors types radius invincibility
          elapsedTime x y rest (o + 1) vx vy a masses
        else ⟨vx, vy, { a with deathTimer := 1.0 }, masses⟩
      else obstacleLoop M behaviors types radius invincibility elapsedTime
        x y rest (o + 1) vx vy a masses

/-- Obstacle pass: skipped entirely for Ghost agents and when the level
declares no obstacle list. -/
def obstacleStep (env : LoopEnv) (trait : ℤ) (x y : ℚ) (vx vy : ℚ) (a : Slot)
    (masses : List ℚ) : ObsRes :=
  if trait ≠ TRAIT_GHOST then
    match env.cfg.obstaclePos with
    | some obs => obstacleLoop env.M env.cfg.obstacleBehaviors
        env.cfg.obstacleTypes env.cfg.obstacleRadius env.sb.invincibility
        env.elapsedTime x y obs 0 vx vy a masses
    | none => ⟨vx, vy, a, masses⟩
  else ⟨vx, vy, a, masses⟩

/-- Result of the wall pass for one agent. -/
structure WallRes where
  vx : ℚ
  vy : ℚ
  a : Slot
  k : ℕ
deriving Repr

/-- Wall pass body: a hit (current or next position inside the padded rotated
rectangle) is lethal with probability 0.35, otherwise the agent is pushed out
along the axis of least penetration and reflected with restitution 0.5; a
lethal hit still lets the scan continue with the remaining walls. -/
def wallLoop (M : MathOps) (dt : ℚ) (rng : ℕ → ℚ) (x y : ℚ) :
    List Wall → ℚ → ℚ → Slot → ℕ → WallRes
  | [], vx, vy, a, k => ⟨vx, vy, a, k⟩
  | wall :: rest, vx, vy, a, k =>
    let wx := wall.posX
    let wy := wall.posY
    let halfW := wall.sizeW / 2
    let halfH := wall.sizeH / 2
    let cos := M.cos (-wall.rotation)
    let sin := M.sin (-wall.rotation)
    let dx := x - wx
    let dy := y - wy
    let nextX := x + vx * dt
    let nextY := y + vy * dt
    let dxNext := nextX - wx
    let dyNext := nextY - wy
    let localX := dx * cos - dy * sin
    let localY := dx * sin + dy * cos
    let localXNext := dxNext * cos - dyNext * sin
    let localYNext := dxNext * sin + dyNext * cos
    let pad : ℚ := 0.2
    let hit :=
      (localX > -halfW - pad ∧ localX < halfW + pad ∧
       localY > -halfH - pad ∧ localY < halfH + pad) ∨
      (localXNext > -halfW - pad ∧ localXNext < halfW + pad ∧
       localYNext > -halfH - pad ∧ localYNext < halfH + pad)
    if hit then
      if rng k < 0.35 then
        wallLoop M dt rng x y rest vx vy { a with deathTimer := 1.0 } (k + 1)
      else
        let distToLeft := localX - (-halfW)
        let distToRight := halfW - localX
        let distToTop := halfH - localY
        let distToBottom := localY - (-halfH)
        let m := min (min (min distToLeft distToRight) distToTop) distToBottom
        let push : ℚ × ℚ × ℚ :=
          if m = distToLeft then (-1, 0, distToLeft + 0.05)
          else if m = distToRight then (1, 0, distToRight + 0.05)
          else if m = distToBottom then (0, -1, distToBottom + 0.05)
          else (0, 1, distToTop + 0.05)
        let pushX := push.1
        let pushY := push.2.1
        let pushDist := push.2.2
        let lXNew := localX + pushX * pushDist
        let lYNew := localY + pushY * pushDist
        let wXNew := lXNew * M.cos wall.rotation - lYNew * M.sin wall.rotation + wx
        let wYNew := lXNew * M.sin wall.rotation + lYNew * M.cos wall.rotation + wy
        let a := { a with posX := wXNew, posY := wYNew }
        let worldNormX := pushX * M.cos wall.rotation - pushY * M.sin wall.rotation
        let worldNormY := pushX * M.sin wall.rotation + pushY * M.cos wall.rotation
        let dot := vx * worldNormX + vy * worldNormY
        let vx := vx - 2 * dot * worldNormX
        let vy := vy - 2 * dot * worldNormY
        wallLoop M dt rng x y rest (vx * 0.5) (vy * 0.5) a (k + 1)
    else wallLoop M dt rng x y rest vx vy a k

/-- Wall pass: runs only when the level declares walls and invincibility is
off. -/
def wallStep (env : LoopEnv) (x y : ℚ) (vx vy : ℚ) (a : Slot) (k : ℕ) : WallRes :=
  match env.cfg.walls with
  | some walls =>
      if ¬env.sb.invincibility then wallLoop env.M env.dt env.rng x y walls vx vy a k
      else ⟨vx, vy, a, k⟩
  | none => ⟨vx, vy, a, k⟩

/-- Portal pass body: within capture distance of a mouth the agent is moved to
the paired endpoint, offset along its velocity direction, and the cooldown
restarts. -/
def portalLoop (M : MathOps) (x y vx vy : ℚ) : List Portal → Slot → Slot
  | [], a => a
  | portal :: rest, a =>
    let dx := x - portal.posX
    let dy := y - portal.posY
    if dx * dx + dy * dy < 1.0 then
      let speed0 := M.sqrt (vx * vx + vy * vy)
      let speed := if speed0 = 0 then 0.1 else speed0
      let dirX := vx / speed
      let dirY := vy / speed
      portalLoop M x y vx vy rest
        { a with posX := portal.targetX + dirX * 1.5,
                 posY := portal.targetY + dirY * 1.5,
                 teleportTimer := 1.0 }
    else portalLoop M x y vx vy rest a

/-- Portal pass: gated once, before the scan, on the already-decremented
per-agent cooldown. -/
def portalStep (env : LoopEnv) (x y vx vy : ℚ) (a : Slot) : Slot :=
  match env.cfg.portals with
  | some portals =>
      if a.teleportTimer ≤ 0 then portalLoop env.M x y vx vy portals a else a
  | none => a

/-- Integration tail of the live pipeline: trait friction, trait-and-age speed
cap, position advance scaled by the time multiplier, and the arena boundary
clamp with velocity sign flip. -/
def integrateStep (env : LoopEnv) (trait : ℤ) (age : ℚ) (vx vy : ℚ) (a : Slot) : Slot :=
  let friction : ℚ :=
    if trait = TRAIT_TITAN then 0.98
    else if trait = TRAIT_GHOST then 0.99 else FRICTION
  let vx := vx * friction
  let vy := vy * friction
  let effectiveMaxSpeed := env.baseMaxSpeed * (1.0 - age * 0.3)
  let effectiveMaxSpeed := if age < 0.2 then effectiveMaxSpeed * 1.3 else effectiveMaxSpeed
  let effectiveMaxSpeed := if age > 0.8 then effectiveMaxSpeed * 0.6 else effectiveMaxSpeed
  let effectiveMaxSpeed := if trait = TRAIT_TITAN then effectiveMaxSpeed * 0.6 else effectiveMaxSpeed
  let effectiveMaxSpeed := if trait = TRAIT_SPARK then effectiveMaxSpeed * 2.2 else effectiveMaxSpeed
  let effectiveMaxSpeed := if trait = TRAIT_GHOST then effectiveMaxSpeed * 1.2 else effectiveMaxSpeed
  let speedSq := vx * vx + vy * vy
  let v2 : ℚ × ℚ :=
    if speedSq > effectiveMaxSpeed * effectiveMaxSpeed then
      let speed := env.M.sqrt speedSq
      (vx / speed * effectiveMaxSpeed, vy / speed * effectiveMaxSpeed)
    else (vx, vy)
  let a := { a with velX := v2.1, velY := v2.2,
                    posX := a.posX + v2.1 * env.timeScale,
                    posY := a.posY + v2.2 * env.timeScale }
  let a := if a.posX > ARENA_BOUNDS_X then { a with posX := ARENA_BOUNDS_X, velX := -a.velX } else a
  let a := if a.posX < -ARENA_BOUNDS_X then { a with posX := -ARENA_BOUNDS_X, velX := -a.velX } else a
  let a := if a.posY > ARENA_BOUNDS_Y then { a with posY := ARENA_BOUNDS_Y, velY := -a.velY } else a
  let a := if a.posY < -ARENA_BOUNDS_Y then { a with posY := -ARENA_BOUNDS_Y, velY := -a.velY } else a
  a

/-- Result of one death-animation step. -/
structure DeathRes where
  a : Slot
  destroyed : Bool
deriving Repr

/-- Restricted update of a slot whose death timer is nonzero: explosion
(timer > 0) freezes in place and drains at rate 4, implosion (timer < 0)
coasts at five-fold speed while the timer rises at rate 1.5; when the timer
crosses zero the slot is freed and fully reset. -/
def deathAnimStep (dt : ℚ) (a : Slot) : DeathRes :=
  if a.deathTimer > 0 then
    let destroyed := a.deathTimer = 1.0
    let t := a.deathTimer - dt * 4.0
    if t ≤ 0 then ⟨{ a with life := 0, deathTimer := 0 }, destroyed⟩
    else ⟨{ a with deathTimer := t }, destroyed⟩
  else
    let t := a.deathTimer + dt * 1.5
    if t ≥ 0 then ⟨{ a with life := 0, deathTimer := 0 }, false⟩
    else
      let a2 := { a with deathTimer := t, posX := a.posX + a.velX * dt * 5.0,
                         posY := a.posY + a.velY * dt * 5.0 }
      ⟨a2, false⟩

/-- Result of one slot's full per-tick update. -/
structure AgentRes where
  a : Slot
  masses : List ℚ
  k : ℕ
  collected : Bool
  destroyed : Bool
deriving Repr

/-- Full per-tick update of one non-free slot, composing the source's stages
in program order; early exits mirror the continue statements of the particle
loop (age-out, boss kill, goal), while anomaly, obstacle and wall kills only
shortcut their own scan and fall through to the rest of the pipeline. -/
def agentTick (env : LoopEnv) (slotsNow : List Slot) (titans : List ℕ)
    (a0 : Slot) (masses0 : List ℚ) (k0 : ℕ) : AgentRes :=
  let a := if a0.teleportTimer > 0
    then { a0 with teleportTimer := a0.teleportTimer - env.dt } else a0
  if a.deathTimer ≠ 0 then
    let d := deathAnimStep env.dt a
    ⟨d.a, masses0, k0, false, d.destroyed⟩
  else
    let vx := a.velX
    let vy := a.velY
    let x := a.posX
    let y := a.posY
    let trait := a.trait
    let a := { a with age := a.age + env.dt * 0.08 }
    if a.age > 1.2 then ⟨{ a with life := 0 }, masses0, k0, false, false⟩
    else
      let a := match env.cfg.chargers with
        | some chargers => { a with charge := chargerStep chargers x y a.charge }
        | none => a
      if env.checkBoss ∧ bossKills env x y then
        ⟨{ a with deathTimer := 1.0 }, masses0, k0, false, false⟩
      else
        let weight := max 0.2 (1.0 - a.age * 0.6)
        let chaosAmount : ℚ := if trait = TRAIT_ROGUE then 0.03 else 0.002
        let vx := vx + (env.rng k0 - 0.5) * chaosAmount
        let vy := vy + (env.rng (k0 + 1) - 0.5) * chaosAmount
        let k := k0 + 2
        let nv : ℚ × ℚ × ℕ :=
          if trait ≠ TRAIT_GHOST then
            let noiseTime := env.elapsedTime * env.timeScale
            let n1 := noiseFn env.M x y (noiseTime * 0.5)
            let n2 := noiseFn env.M (x + 10) (y + 10) (noiseTime * 0.3)
            let dirk : ℚ × ℕ :=
              if trait = TRAIT_ROGUE then (if env.rng k > 0.9 then -1 else 1, k + 1)
              else (1, k)
            (vx + (n1 + n2) * 0.005 * weight * dirk.1,
             vy + (n1 - n2) * 0.005 * weight * dirk.1, dirk.2)
          else (vx, vy, k)
        let vx := nv.1
        let vy := nv.2.1
        let k := nv.2.2
        let tv : ℚ × ℚ :=
          if trait ≠ TRAIT_TITAN ∧ titans.length > 0 then
            titanStep env.M slotsNow titans x y vx vy
          else (vx, vy)
        let vx := tv.1
        let vy := tv.2
        let mv : ℚ × ℚ :=
          if env.sb.mouseAttractor ∧ env.isDrawing then
            let mdx := env.mouseX - x
            let mdy := env.mouseY - y
            let md0 := env.M.sqrt (mdx * mdx + mdy * mdy)
            let mdist := if md0 = 0 then 1 else md0
            (vx + mdx / mdist * 0.5 * weight, vy + mdy / mdist * 0.5 * weight)
          else (vx, vy)
        let vx := mv.1
        let vy := mv.2
        let av := anomalyStep env.M env.sb env.anomalies x y vx vy a.deathTimer
        let vx := av.1
        let vy := av.2.1
        let a := { a with deathTimer := av.2.2 }
        let pv := pathStep env trait a.age weight x y vx vy k
        let vx := pv.1
        let vy := pv.2.1
        let k := pv.2.2
        let ob := obstacleStep env trait x y vx vy a masses0
        let wl := wallStep env x y ob.vx ob.vy ob.a k
        let a := portalStep env x y wl.vx wl.vy wl.a
        let dxTarget := env.cfg.targetX - x
        let dyTarget := env.cfg.targetY - y
        let distToTargetSq := dxTarget * dxTarget + dyTarget * dyTarget
        if distToTargetSq < env.cfg.targetRadius * env.cfg.targetRadius then
          if env.cfg.conversionRequired = some true ∧ a.charge = 0 then
            ⟨{ a with deathTimer := 1.0 }, ob.masses, wl.k, false, false⟩
          else
            ⟨{ a with life := 0 }, ob.masses, wl.k, true, false⟩
        else
          ⟨integrateStep env trait a.age wl.vx wl.vy a, ob.masses, wl.k, false, false⟩

/-- Aggregate result of the per-agent loop of one tick. -/
structure LoopRes where
  slots : List Slot
  masses : List ℚ
  k : ℕ
  titans : List ℕ
  active : ℕ
  collected : ℕ
  destroyed : ℕ
deriving Repr

/-- Per-agent loop body: free slots are skipped, Titan indices are collected
(capped at 50) before the slot's own update, and each processed slot is
written back before the next index is visited, so that later agents see the
already-updated positions of earlier ones. -/
def agentLoopGo (env : LoopEnv) :
    List ℕ → List Slot → List ℚ → ℕ → List ℕ → ℕ → ℕ → ℕ → LoopRes
  | [], slots, masses, k, titans, active, coll, dest =>
      ⟨slots, masses, k, titans, active, coll, dest⟩
  | i :: rest, slots, masses, k, titans, active, coll, dest =>
    let a := slots.getD i freshSlot
    if isFree a then agentLoopGo env rest slots masses k titans active coll dest
    else
      let titans2 := if a.trait = TRAIT_TITAN ∧ titans.length < 50
        then titans ++ [i] else titans
      let r := agentTick env slots titans2 a masses k
      agentLoopGo env rest (slots.set i r.a) r.masses r.k titans2 (active + 1)
        (coll + if r.collected then 1 else 0)
        (dest + if r.destroyed then 1 else 0)

/-- Per-agent loop over the whole slot array. -/
def agentLoop (env : LoopEnv) (slots : List Slot) (masses : List ℚ) (k : ℕ) :
    LoopRes :=
  agentLoopGo env (List.range slots.length) slots masses k [] 0 0 0

/-- Persistent simulation state across ticks: the slot arrays, the fuel
counter, the cumulative capture count, the warmup frame counter, the win
latch, the level id the arrays were reset for, and the shared black-hole mass
vector. -/
structure SimState where
  slots : List Slot
  fuel : ℚ
  collected : ℕ
  frameCount : ℕ
  hasWon : Bool
  activeLevelId : ℤ
  masses : List ℚ
deriving DecidableEq, Repr

/-- Callbacks fired by one tick. -/
structure Events where
  progress : Option ℕ
  activeCount : Option ℕ
  fuelSet : Option ℚ
  levelComplete : Bool
deriving DecidableEq, Repr

def noEvents : Events :=
  { progress := none, activeCount := none, fuelSet := none, levelComplete := false }

/-- External inputs of one tick. -/
structure TickInput where
  delta : ℚ
  elapsedTime : ℚ
  paused : Bool
  isDrawing : Bool
  mouseX : ℚ
  mouseY : ℚ
  anomalies : List Anomaly
  paths : List (List (ℚ × ℚ))
  rng : ℕ → ℚ

/-- State written by the reset effect for a level, with the slot-array
capacity as a parameter (the source allocates PARTICLE_COUNT slots). -/
def resetState (cfg : LevelConfig) (n : ℕ) : SimState :=
  { slots := List.replicate n freshSlot,
    fuel := match cfg.particleBudget with
      | none => 999999
      | some b => if b = 0 then 999999 else b,
    collected := 0, frameCount := 0, hasWon := false,
    activeLevelId := cfg.id,
    masses := [0, 0, 0, 0, 0] }

/-- Scaled time delta of one tick, with the zero time-scale fallback. -/
def tickDt (sb : SandboxSettings) (inp : TickInput) : ℚ :=
  inp.delta * (if sb.timeScale = 0 then 1 else sb.timeScale)

/-- Reporting tail of one tick: write back the loop results and, when this
tick captured anything, report progress and possibly latch the once-only win
signal. -/
def tickReport (cfg : LevelConfig) (s : SimState) (slots2 : List Slot)
    (masses2 : List ℚ) (fuel2 : ℚ) (fuelEvent : Option ℚ)
    (activeEvent : Option ℕ) (collectedThisFrame : ℕ) : SimState × Events :=
  if collectedThisFrame > 0 then
    let newCollected := s.collected + collectedThisFrame
    let win := newCollected ≥ cfg.requiredCount ∧ s.hasWon = false
    ({ s with slots := slots2, masses := masses2, fuel := fuel2,
              collected := newCollected,
              hasWon := if win then true else s.hasWon },
     { progress := some newCollected, activeCount := activeEvent,
       fuelSet := fuelEvent, levelComplete := win })
  else
    ({ s with slots := slots2, masses := masses2, fuel := fuel2 },
     { progress := none, activeCount := activeEvent,
       fuelSet := fuelEvent, levelComplete := false })

/-- Body of one tick past the early-return gates: emission, the per-agent
loop and the reporting tail. -/
def tickMain (M : MathOps) (cfg : LevelConfig) (sb : SandboxSettings)
    (inp : TickInput) (s : SimState) : SimState × Events :=
  let timeScale := if sb.timeScale = 0 then 1 else sb.timeScale
  let dt := inp.delta * timeScale
  let em := emission cfg sb timeScale inp.rng s.slots s.fuel
  let slots1 := em.1
  let spawned := em.2.1
  let fuel1 := em.2.2.1
  let k1 := em.2.2.2
  let isInfinite := isInfiniteFuel cfg sb
  let fuelEvent : Option ℚ :=
    if ¬isInfinite = true ∧ spawned > 0 then some fuel1 else none
  let checkBoss := decide (cfg.isBossLevel = some true) && !sb.invincibility
  let bossAngle : ℚ :=
    if checkBoss then
      let progressRatio : ℚ :=
        if cfg.requiredCount > 0 then (s.collected : ℚ) / (cfg.requiredCount : ℚ) else 0
      let speedMult : ℚ := if progressRatio > 0.5 then 2.0 else 1.0
      jsMod (-(inp.elapsedTime * 0.5 * speedMult)) (M.pi * 2)
    else 0
  let env : LoopEnv :=
    { M := M, cfg := cfg, sb := sb, paths := inp.paths,
      anomalies := inp.anomalies, isDrawing := inp.isDrawing,
      mouseX := inp.mouseX, mouseY := inp.mouseY,
      elapsedTime := inp.elapsedTime, timeScale := timeScale, dt := dt,
      rng := inp.rng,
      gravityForce := GRAVITY_STRENGTH * sb.gravityMult,
      flowForce := PATH_FLOW_FORCE * sb.gravityMult,
      baseMaxSpeed := MAX_SPEED * sb.speedMult,
      checkBoss := checkBoss, bossAngleStart := bossAngle,
      bossKillDist := if checkBoss then 10.0 else 0 }
  let lr := agentLoop env slots1 s.masses k1
  let activeEvent : Option ℕ :=
    if s.frameCount % 10 = 0 then some lr.active else none
  tickReport cfg s lr.slots lr.masses fuel1 fuelEvent activeEvent lr.collected

/-- One simulation tick: the early-return gates, then the main body. -/
def tick (M : MathOps) (cfg : LevelConfig) (sb : SandboxSettings)
    (inp : TickInput) (s : SimState) : SimState × Events :=
  if s.activeLevelId ≠ cfg.id then (s, noEvents)
  else if s.hasWon then (s, noEvents)
  else if s.frameCount < 20 then ({ s with frameCount := s.frameCount + 1 }, noEvents)
  else if inp.paused then (s, noEvents)
  else if tickDt sb inp ≤ 0 then (s, noEvents)
  else tickMain M cfg sb inp s

/-- Trace of states and events from a starting state through a list of tick
inputs. -/
def run (M : MathOps) (cfg : LevelConfig) (sb : SandboxSettings)
    (s : SimState) : List TickInput → List (SimState × Events)
  | [] => []
  | inp :: rest =>
    let r := tick M cfg sb inp s
    r :: run M cfg sb r.1 rest

/-- Trait table written from the claim text, with non-strict thresholds, to be
compared against the engine's traitOf. -/
def traitOfSpecGE (r : ℚ) : ℤ :=
  if r ≥ 0.985 then TRAIT_TITAN
  else if r ≥ 0.94 then TRAIT_SPARK
  else if r ≥ 0.90 then TRAIT_ROGUE
  else if r ≥ 0.85 then TRAIT_GHOST
  else if r ≥ 0.80 then TRAIT_WEAVER
  else TRAIT_NORMAL

/-- Candidates visited by the stride-2 scan of one polyline, in scan order,
as (path index, point index, squared distance) triples. -/
def scanCands (x y : ℚ) (pathIdx : ℕ) : List (ℚ × ℚ) → ℕ → List (ℕ × ℕ × ℚ)
  | [], _ => []
  | [p], pIdx =>
      [(pathIdx, pIdx, (x - p.1) * (x - p.1) + (y - p.2) * (y - p.2))]
  | p :: _ :: rest, pIdx =>
      (pathIdx, pIdx, (x - p.1) * (x - p.1) + (y - p.2) * (y - p.2)) ::
        scanCands x y pathIdx rest (pIdx + 2)

/-- All sampled candidates across the polylines in draw order, skipping
polylines with fewer than two points. -/
def allCands (x y : ℚ) : List (List (ℚ × ℚ)) → ℕ → List (ℕ × ℕ × ℚ)
  | [], _ => []
  | path :: rest, pathIdx =>
      (if path.length < 2 then [] else scanCands x y pathIdx path 0) ++
        allCands x y rest (pathIdx + 1)

/-- Selection function written from the amended claim text: the candidate of
minimal squared distance, the earliest-scanned one taking precedence on
ties. -/
def firstMinCand : List (ℕ × ℕ × ℚ) → Option (ℕ × ℕ × ℚ)
  | [] => none
  | c :: rest =>
    match firstMinCand rest with
    | none => some c
    | some m => if c.2.2 ≤ m.2.2 then some c else some m

/-- Resolution of a running best against the first minimum of the remaining
candidates, mirroring how the strict-inequality fold treats ties. -/
def mergeBest : Option (ℕ × ℕ × ℚ) → Option (ℕ × ℕ × ℚ) → Option (ℕ × ℕ × ℚ)
  | b, none => b
  | none, some m => some m
  | some b, some m => if m.2.2 < b.2.2 then some m else some b

/-- One comparison step of the strict-inequality fold: a candidate replaces
the running best only when strictly closer. -/
def stepBest (best : Option (ℕ × ℕ × ℚ)) (c : ℕ × ℕ × ℚ) :
    Option (ℕ × ℕ × ℚ) :=
  match best with
  | none => some c
  | some b => if c.2.2 < b.2.2 then some c else some b

/-- Constant random stream used by the concrete evaluation fixtures. -/
def rngHalf : ℕ → ℚ := fun _ => 1/2

/-- Oracle returning the exact square root at the one radicand the blackhole
fixture needs. -/
def opsSqrt9 : MathOps :=
  { zeroOps with sqrt := fun q => if q = 9/100 then 3/10 else 0 }

/-- Featureless fixture level: emitter at (-5,0), goal at (5,0), no budget. -/
def cfgPlain : LevelConfig :=
  { id := 1
    emitterX := -5
    emitterY := 0
    targetX := 5
    targetY := 0
    targetRadius := 1.2
    obstaclePos := none
    obstacleRadius := none
    obstacleTypes := none
    obstacleBehaviors := none
    walls := none
    portals := none
    chargers := none
    conversionRequired := none
    requiredCount := 10
    particleBudget := none
    isBossLevel := none }

/-- Fixture level with a particle budget of one unit. -/
def cfgFuelOne : LevelConfig := { cfgPlain with particleBudget := some 1 }

/-- Fixture level with a single static black hole of radius 1 at the
origin. -/
def cfgHole : LevelConfig :=
  { cfgPlain with
      obstaclePos := some [(0, 0)]
      obstacleTypes := some [ObstacleType.blackhole]
      obstacleRadius := some 1 }

/-- Fixture level requiring a single capture. -/
def cfgWin : LevelConfig := { cfgPlain with requiredCount := 1 }

/-- Default sandbox settings of the fixtures: all multipliers one, all toggles
off. -/
def sbBase : SandboxSettings :=
  { gravityMult := 1
    speedMult := 1
    timeScale := 1
    rainbowMode := false
    giantMode := false
    infiniteAmmo := false
    symmetry := false
    mouseAttractor := false
    invincibility := false
    hyperTrails := false }

/-- Baseline tick input of the fixtures. -/
def inpBase : TickInput :=
  { delta := 1/10
    elapsedTime := 5
    paused := false
    isDrawing := false
    mouseX := 0
    mouseY := 0
    anomalies := []
    paths := []
    rng := rngHalf }

/-- Active lethal hazard anomaly sitting exactly on the fixture goal. -/
def hazardAtGoal : Anomaly :=
  { posX := 5
    posY := 0
    radius := 1
    isActive := true
    type := AnomalyType.hazard }

/-- Live mid-age agent slot at the fixture goal position. -/
def slotAtGoal : Slot :=
  { posX := 5
    posY := 0
    velX := 0
    velY := 0
    life := 1
    age := 0.5
    trait := TRAIT_NORMAL
    deathTimer := 0
    charge := 0
    teleportTimer := 0 }

/-- Live agent slot inside the fixture black hole's capture radius, moving
outward. -/
def slotNearHole : Slot := { slotAtGoal with posX := 0.3, posY := 0, velX := 0.2 }

/-- Post-warmup state with two free slots and one unit of fuel. -/
def sFuelOne : SimState := { resetState cfgFuelOne 2 with frameCount := 20 }

/-- Post-warmup state with one live agent sitting on the goal. -/
def sAtGoal : SimState :=
  { resetState cfgPlain 1 with frameCount := 20, slots := [slotAtGoal] }

/-- Post-warmup state with one live agent inside the black hole's capture
radius. -/
def sNearHole : SimState :=
  { resetState cfgHole 1 with frameCount := 20, slots := [slotNearHole] }

/-- Post-warmup state one capture away from completing the fixture level. -/
def sAtGoalWin : SimState :=
  { resetState cfgWin 1 with frameCount := 20, slots := [slotAtGoal] }

/-- Concrete per-agent loop environment matching the featureless fixture. -/
def envPlain : LoopEnv :=
  { M := zeroOps
    cfg := cfgPlain
    sb := sbBase
    paths := []
    anomalies := []
    isDrawing := false
    mouseX := 0
    mouseY := 0
    elapsedTime := 5
    timeScale := 1
    dt := 1/10
    rng := rngHalf
    gravityForce := GRAVITY_STRENGTH
    flowForce := PATH_FLOW_FORCE
    baseMaxSpeed := MAX_SPEED
    checkBoss := false
    bossAngleStart := 0
    bossKillDist := 0 }

/-- Concrete per-agent loop environment matching the black-hole fixture. -/
def envHole : LoopEnv := { envPlain with M := opsSqrt9, cfg := cfgHole }

/-- Constant input stream for trace fixtures. -/
def inpsBase : ℕ → TickInput := fun _ => inpBase

/-- State along a trace driven by an input stream: state zero is the starting
state, and each tick advances it. -/
def stateAt (M : MathOps) (cfg : LevelConfig) (sb : SandboxSettings)
    (inps : ℕ → TickInput) (s0 : SimState) : ℕ → SimState
  | 0 => s0
  | n + 1 => (tick M cfg sb (inps n) (stateAt M cfg sb inps s0 n)).1

/-- Events fired by tick n of a trace. -/
def eventsAt (M : MathOps) (cfg : LevelConfig) (sb : SandboxSettings)
    (inps : ℕ → TickInput) (s0 : SimState) (n : ℕ) : Events :=
  (tick M cfg sb (inps n) (stateAt M cfg sb inps s0 n)).2

theorem emitLoop_fuel_eq (cfg : LevelConfig) (rate : ℚ) (rng : ℕ → ℚ) :
    ∀ (l : List Slot) (sp : ℕ) (fuel : ℚ) (k : ℕ),
      (emitLoop cfg false rate rng l sp fuel k).2.2.1 +
        ((emitLoop cfg false rate rng l sp fuel k).2.1 : ℚ) = fuel + sp
  | [], sp, fuel, k => by simp [emitLoop]
  | s :: rest, sp, fuel, k => by
    rw [emitLoop]
    by_cases h1 : (sp : ℚ) ≥ rate
    · rw [if_pos h1]
    · rw [if_neg h1]
      by_cases h2 : isFree s
      · rw [if_pos h2]
        have ih := emitLoop_fuel_eq cfg rate rng rest (sp + 1) (fuel - 1)
          (spawnSlot cfg rng k).2
        simp only [Bool.false_eq_true, if_false]
        push_cast at ih ⊢
        linarith
      · rw [if_neg h2]
        have ih := emitLoop_fuel_eq cfg rate rng rest sp fuel k
        simpa using ih

theorem emitLoop_rate_bound (cfg : LevelConfig) (inf : Bool) (rate : ℚ)
    (rng : ℕ → ℚ) :
    ∀ (l : List Slot) (sp : ℕ) (fuel : ℚ) (k : ℕ),
      (emitLoop cfg inf rate rng l sp fuel k).2.1 = sp ∨
        (((emitLoop cfg inf rate rng l sp fuel k).2.1 : ℚ) - 1 < rate)
  | [], sp, fuel, k => by simp [emitLoop]
  | s :: rest, sp, fuel, k => by
    rw [emitLoop]
    by_cases h1 : (sp : ℚ) ≥ rate
    · rw [if_pos h1]
      left
      rfl
    · rw [if_neg h1]
      by_cases h2 : isFree s
      · rw [if_pos h2]
        have ih := emitLoop_rate_bound cfg inf rate rng rest (sp + 1)
          (if inf then fuel else fuel - 1) (spawnSlot cfg rng k).2
        rw [not_le] at h1
        right
        show ((emitLoop cfg inf rate rng rest (sp + 1)
          (if inf then fuel else fuel - 1) (spawnSlot cfg rng k).2).2.1 : ℚ) - 1 < rate
        rcases ih with h | h
        · rw [h]
          push_cast
          linarith
        · linarith
      · rw [if_neg h2]
        have ih := emitLoop_rate_bound cfg inf rate rng rest sp fuel k
        simpa using ih

/-- C1 (amended): with a finite budget and the infinite-fuel toggle off,
spawning is gated on positive fuel once per tick, each spawn consumes exactly
one unit, and the spawn count stays below the scaled emitter rate plus one;
fuel can therefore drop below zero within the gated tick, but by less than
the scaled emitter rate, and a tick starting at nonpositive fuel spawns
nothing and leaves fuel unchanged. -/
theorem C1_fuel_budget_gate (cfg : LevelConfig) (sb : SandboxSettings)
    (timeScale : ℚ) (rng : ℕ → ℚ) (slots : List Slot) (fuel : ℚ)
    (hBudget : cfg.particleBudget.isSome = true)
    (hAmmo : sb.infiniteAmmo = false) :
    (fuel ≤ 0 → emission cfg sb timeScale rng slots fuel = (slots, 0, fuel, 0)) ∧
    ((emission cfg sb timeScale rng slots fuel).2.2.1 =
      fuel - ((emission cfg sb timeScale rng slots fuel).2.1 : ℚ)) ∧
    ((emission cfg sb timeScale rng slots fuel).2.1 = 0 ∨
      (((emission cfg sb timeScale rng slots fuel).2.1 : ℚ) - 1 <
        EMITTER_RATE * timeScale)) := by
  have hInf : isInfiniteFuel cfg sb = false := by
    simp [isInfiniteFuel, hBudget, hAmmo]
  refine ⟨?_, ?_, ?_⟩
  · intro hle
    have hgt : ¬fuel > 0 := not_lt.mpr hle
    simp [emission, hInf, hgt]
  · unfold emission
    rw [hInf]
    by_cases hgt : fuel > 0
    · have hcond : (false || decide (fuel > 0)) = true := by simp [hgt]
      simp only [hcond, if_true]
      have := emitLoop_fuel_eq cfg (EMITTER_RATE * timeScale) rng slots 0 fuel 0
      push_cast at this ⊢
      linarith
    · simp [hgt]
  · unfold emission
    rw [hInf]
    by_cases hgt : fuel > 0
    · have hcond : (false || decide (fuel > 0)) = true := by simp [hgt]
      simp only [hcond, if_true]
      have := emitLoop_rate_bound cfg false (EMITTER_RATE * timeScale) rng slots 0 fuel 0
      simpa using this
    · simp [hgt]

theorem C1_fuel_budget_gate_witness :
    (emission cfgFuelOne sbBase 1 rngHalf (List.replicate 2 freshSlot) 1).2.2.1 =
      1 - ((emission cfgFuelOne sbBase 1 rngHalf (List.replicate 2 freshSlot) 1).2.1 : ℚ) :=
  (C1_fuel_budget_gate cfgFuelOne sbBase 1 rngHalf (List.replicate 2 freshSlot) 1
    (by with_unfolding_all decide) (by with_unfolding_all decide)).2.1

/-- C1 counterexample: with a budget of one unit, one tick at the default
emitter rate spawns into both free slots and drives the fuel counter to -1,
so fuel does become negative within a single tick's emission loop. -/
theorem C1_counterexample :
    (tick zeroOps cfgFuelOne sbBase inpBase sFuelOne).1.fuel < 0 := by
  with_unfolding_all decide

/-- C6 counterexample: at the draw r = 0.985 the engine's strict thresholds
assign Spark, while the claim's non-strict thresholds assign Titan. -/
theorem C6_counterexample :
    traitOf 0.985 = TRAIT_SPARK ∧ traitOfSpecGE 0.985 = TRAIT_TITAN ∧
    traitOf 0.985 ≠ traitOfSpecGE 0.985 := by with_unfolding_all decide

/-- C6 (amended): each spawn draws one uniform value and maps it through
strictly cumulative thresholds, Titan exactly above 0.985, Spark on
(0.94, 0.985], Rogue on (0.90, 0.94], Ghost on (0.85, 0.90], Weaver on
(0.80, 0.85], and Normal at or below 0.80. -/
theorem C6_trait_roll_strict (cfg : LevelConfig) (rng : ℕ → ℚ) (k : ℕ) (r : ℚ) :
    (spawnSlot cfg rng k).1.trait = traitOf (rng k) ∧
    (traitOf r = TRAIT_TITAN ↔ 0.985 < r) ∧
    (traitOf r = TRAIT_SPARK ↔ 0.94 < r ∧ r ≤ 0.985) ∧
    (traitOf r = TRAIT_ROGUE ↔ 0.90 < r ∧ r ≤ 0.94) ∧
    (traitOf r = TRAIT_GHOST ↔ 0.85 < r ∧ r ≤ 0.90) ∧
    (traitOf r = TRAIT_WEAVER ↔ 0.80 < r ∧ r ≤ 0.85) ∧
    (traitOf r = TRAIT_NORMAL ↔ r ≤ 0.80) := by
  refine ⟨rfl, ?_, ?_, ?_, ?_, ?_, ?_⟩ <;>
  · unfold traitOf TRAIT_NORMAL TRAIT_TITAN TRAIT_ROGUE TRAIT_SPARK TRAIT_GHOST TRAIT_WEAVER
    split_ifs <;> simp_all <;> (try constructor) <;> (try intro h) <;> linarith

/-- C8 (confirmed): a paused tick leaves every slot, the fuel counter, the
capture counter, the mass vector and the win latch unchanged, and fires no
callback. -/
theorem C8_pause_is_noop (M : MathOps) (cfg : LevelConfig) (sb : SandboxSettings)
    (inp : TickInput) (s : SimState) (hp : inp.paused = true) :
    (tick M cfg sb inp s).1.slots = s.slots ∧
    (tick M cfg sb inp s).1.fuel = s.fuel ∧
    (tick M cfg sb inp s).1.collected = s.collected ∧
    (tick M cfg sb inp s).1.masses = s.masses ∧
    (tick M cfg sb inp s).1.hasWon = s.hasWon ∧
    (tick M cfg sb inp s).2 = noEvents := by
  unfold tick
  split_ifs <;> simp_all

theorem C8_pause_is_noop_witness :
    (tick zeroOps cfgPlain sbBase { inpBase with paused := true } sAtGoal).1.slots = sAtGoal.slots ∧
    (tick zeroOps cfgPlain sbBase { inpBase with paused := true } sAtGoal).1.fuel = sAtGoal.fuel ∧
    (tick zeroOps cfgPlain sbBase { inpBase with paused := true } sAtGoal).1.collected = sAtGoal.collected ∧
    (tick zeroOps cfgPlain sbBase { inpBase with paused := true } sAtGoal).1.masses = sAtGoal.masses ∧
    (tick zeroOps cfgPlain sbBase { inpBase with paused := true } sAtGoal).1.hasWon = sAtGoal.hasWon ∧
    (tick zeroOps cfgPlain sbBase { inpBase with paused := true } sAtGoal).2 = noEvents :=
  C8_pause_is_noop zeroOps cfgPlain sbBase { inpBase with paused := true } sAtGoal rfl

theorem emitLoop_touches_only_free (cfg : LevelConfig) (inf : Bool) (rate : ℚ)
    (rng : ℕ → ℚ) :
    ∀ (l : List Slot) (sp : ℕ) (fuel : ℚ) (k : ℕ),
      List.Forall₂ (fun sIn sOut => sOut = sIn ∨ isFree sIn) l
        (emitLoop cfg inf rate rng l sp fuel k).1
  | [], sp, fuel, k => by simp [emitLoop]
  | s :: rest, sp, fuel, k => by
    rw [emitLoop]
    by_cases h1 : (sp : ℚ) ≥ rate
    · rw [if_pos h1]
      exact List.forall₂_same.mpr fun x _ => Or.inl rfl
    · rw [if_neg h1]
      by_cases h2 : isFree s
      · rw [if_pos h2]
        show List.Forall₂ _ (s :: rest) ((spawnSlot cfg rng k).1 ::
          (emitLoop cfg inf rate rng rest (sp + 1)
            (if inf then fuel else fuel - 1) (spawnSlot cfg rng k).2).1)
        exact List.Forall₂.cons (Or.inr h2)
          (emitLoop_touches_only_free cfg inf rate rng rest (sp + 1) _ _)
      · rw [if_neg h2]
        show List.Forall₂ _ (s :: rest)
          (s :: (emitLoop cfg inf rate rng rest sp fuel k).1)
        exact List.Forall₂.cons (Or.inl rfl)
          (emitLoop_touches_only_free cfg inf rate rng rest sp fuel k)

/-- C5 (amended): the emission scan spawns only into slots that are free in
the sense of the source's reuse condition (alive flag down and death timer
zero), every other slot is passed through unchanged, and a death-animation
step either frees the slot with timer fully reset or leaves the alive flag
alone with the timer still nonzero.  The original invariant (alive false
implies timer zero at every tick boundary) fails: an agent killed earlier in
a tick can still be captured at the goal in the same tick, clearing the alive
flag while its death timer is nonzero; such a slot only becomes reusable
after the animation completes. -/
theorem C5_free_slot_discipline (cfg : LevelConfig) (sb : SandboxSettings)
    (timeScale : ℚ) (rng : ℕ → ℚ) :
    (∀ (slots : List Slot) (fuel : ℚ),
      List.Forall₂ (fun sIn sOut => sOut = sIn ∨ isFree sIn) slots
        (emission cfg sb timeScale rng slots fuel).1) ∧
    (∀ (dt : ℚ) (a : Slot),
      ((deathAnimStep dt a).a.life = 0 ∧ (deathAnimStep dt a).a.deathTimer = 0) ∨
      ((deathAnimStep dt a).a.life = a.life ∧
        (deathAnimStep dt a).a.deathTimer ≠ 0)) := by
  constructor
  · intro slots fuel
    unfold emission
    by_cases h : (isInfiniteFuel cfg sb || decide (fuel > 0)) = true
    · rw [if_pos h]
      exact emitLoop_touches_only_free cfg (isInfiniteFuel cfg sb)
        (EMITTER_RATE * timeScale) rng slots 0 fuel 0
    · rw [if_neg h]
      exact List.forall₂_same.mpr fun x _ => Or.inl rfl
  · intro dt a
    simp only [deathAnimStep]
    split_ifs with h1 h2 h3
    · exact Or.inl ⟨rfl, rfl⟩
    · refine Or.inr ⟨rfl, ?_⟩
      rw [not_le] at h2
      exact ne_of_gt h2
    · exact Or.inl ⟨rfl, rfl⟩
    · refine Or.inr ⟨rfl, ?_⟩
      rw [not_le] at h3
      exact ne_of_lt h3

/-- C5 counterexample: a live agent standing both inside an active lethal
hazard's radius and inside the goal radius is killed by the anomaly pass and
then still captured by the goal check of the same tick, so the tick ends with
the slot's alive flag down while its death timer is 1, and the capture is
reported. -/
theorem C5_counterexample :
    ((tick zeroOps cfgPlain sbBase { inpBase with anomalies := [hazardAtGoal] }
        sAtGoal).1.slots.getD 0 freshSlot).life = 0 ∧
    ((tick zeroOps cfgPlain sbBase { inpBase with anomalies := [hazardAtGoal] }
        sAtGoal).1.slots.getD 0 freshSlot).deathTimer = 1 ∧
    (tick zeroOps cfgPlain sbBase { inpBase with anomalies := [hazardAtGoal] }
        sAtGoal).2.progress = some 1 := by
  with_unfolding_all decide

/-- C2 (amended): a live, non-invincible, non-Ghost agent inside a black
hole's capture radius enters the Imploding state (death timer set to -1), the
hole's mass counter is incremented by exactly one, and the agent's stored
velocity is set radially outward (away from the hole) at magnitude 2; the
increment happens only in that tick, since a dying agent's update never
touches the mass vector.  On each subsequent tick until the implosion timer
reaches zero the agent coasts along its stored velocity at five-fold speed
(the timer rising by 1.5 per unit time), and the slot is freed with the timer
reset once the timer reaches zero; the agent does not, in general, move
toward the hole. -/
theorem C2_blackhole_capture (env : LoopEnv) (trait : ℤ) (x y vx vy : ℚ)
    (a : Slot) (masses : List ℚ) (hx hy rad : ℚ)
    (hObs : env.cfg.obstaclePos = some [(hx, hy)])
    (hTypes : env.cfg.obstacleTypes = some [ObstacleType.blackhole])
    (hBeh : env.cfg.obstacleBehaviors = none)
    (hRad : env.cfg.obstacleRadius = some rad)
    (hRadPos : 0 < rad)
    (hInv : env.sb.invincibility = false)
    (hGhost : trait ≠ TRAIT_GHOST)
    (hKill : (x - hx) * (x - hx) + (y - hy) * (y - hy) <
      rad * 0.6 * (rad * 0.6)) :
    ((obstacleStep env trait x y vx vy a masses).a.deathTimer = -1 ∧
     (obstacleStep env trait x y vx vy a masses).a.velX =
       (x - hx) / env.M.sqrt ((x - hx) * (x - hx) + (y - hy) * (y - hy)) * 2.0 ∧
     (obstacleStep env trait x y vx vy a masses).a.velY =
       (y - hy) / env.M.sqrt ((x - hx) * (x - hx) + (y - hy) * (y - hy)) * 2.0 ∧
     (obstacleStep env trait x y vx vy a masses).masses =
       setMass masses 0 (getMass masses 0 + 1)) ∧
    (∀ (dt : ℚ) (b : Slot), b.deathTimer < 0 → b.deathTimer + dt * 1.5 < 0 →
      (deathAnimStep dt b).a.posX = b.posX + b.velX * dt * 5.0 ∧
      (deathAnimStep dt b).a.posY = b.posY + b.velY * dt * 5.0 ∧
      (deathAnimStep dt b).a.deathTimer = b.deathTimer + dt * 1.5) ∧
    (∀ (dt : ℚ) (b : Slot), b.deathTimer < 0 → 0 ≤ b.deathTimer + dt * 1.5 →
      (deathAnimStep dt b).a.life = 0 ∧ (deathAnimStep dt b).a.deathTimer = 0) ∧
    (∀ (slotsNow : List Slot) (titans : List ℕ) (b : Slot) (m : List ℚ) (k : ℕ),
      b.deathTimer ≠ 0 → (agentTick env slotsNow titans b m k).masses = m) := by
  have hrad0 : rad ≠ 0 := ne_of_gt hRadPos
  have hpull : (x - hx) * (x - hx) + (y - hy) * (y - hy) <
      rad * 2.5 * (rad * 2.5) := by nlinarith
  have hcap : ¬env.sb.invincibility = true ∧
      (x - hx) * (x - hx) + (y - hy) * (y - hy) < rad * 0.6 * (rad * 0.6) := by
    rw [hInv]
    exact ⟨by simp, hKill⟩
  refine ⟨?_, ?_, ?_, ?_⟩
  · unfold obstacleStep
    rw [if_pos hGhost, hObs]
    simp only [obstacleLoop, hBeh, hTypes, hRad, getObstaclePos, Option.bind,
      List.get?, if_neg hrad0, if_true]
    rw [if_pos hpull, if_pos hcap]
    exact ⟨by norm_num, rfl, rfl, rfl⟩
  · intro dt b hneg hstill
    simp only [deathAnimStep]
    rw [if_neg (not_lt.mpr (le_of_lt hneg)), if_neg (not_le.mpr hstill)]
    exact ⟨rfl, rfl, rfl⟩
  · intro dt b hneg hdone
    simp only [deathAnimStep]
    rw [if_neg (not_lt.mpr (le_of_lt hneg)), if_pos hdone]
    exact ⟨rfl, rfl⟩
  · intro slotsNow titans b m k hdying
    unfold agentTick
    by_cases ht : b.teleportTimer > 0
    · rw [if_pos ht]
      rw [if_pos (show ({ b with teleportTimer := b.teleportTimer - env.dt } : Slot).deathTimer ≠ 0 from hdying)]
    · rw [if_neg ht, if_pos hdying]

theorem C2_blackhole_capture_witness :
    (obstacleStep envHole TRAIT_NORMAL 0.3 0 0 0 slotAtGoal []).a.deathTimer = -1 ∧
    (obstacleStep envHole TRAIT_NORMAL 0.3 0 0 0 slotAtGoal []).a.velX =
      (0.3 - 0) / envHole.M.sqrt ((0.3 - 0) * (0.3 - 0) + (0 - 0) * (0 - 0)) * 2.0 ∧
    (obstacleStep envHole TRAIT_NORMAL 0.3 0 0 0 slotAtGoal []).a.velY =
      (0 - 0) / envHole.M.sqrt ((0.3 - 0) * (0.3 - 0) + (0 - 0) * (0 - 0)) * 2.0 ∧
    (obstacleStep envHole TRAIT_NORMAL 0.3 0 0 0 slotAtGoal []).masses =
      setMass [] 0 (getMass [] 0 + 1) :=
  (C2_blackhole_capture envHole TRAIT_NORMAL 0.3 0 0 0 slotAtGoal [] 0 0 1
    rfl rfl rfl rfl (by with_unfolding_all decide) rfl
    (by with_unfolding_all decide) (by with_unfolding_all decide)).1

/-- C2 counterexample: a live agent at distance 0.3 from a radius-1 black
hole, drifting outward, is captured (timer -1, mass 1), but its stored
velocity is then overwritten by the end-of-tick integration, and on the next
tick, still imploding, its squared distance to the hole increases: it moves
away from the hole, not toward it. -/
theorem C2_counterexample :
    ((tick opsSqrt9 cfgHole sbBase inpBase sNearHole).1.slots.getD 0
        freshSlot).deathTimer = -1 ∧
    (tick opsSqrt9 cfgHole sbBase inpBase sNearHole).1.masses = [1, 0, 0, 0, 0] ∧
    ((tick opsSqrt9 cfgHole sbBase inpBase
        (tick opsSqrt9 cfgHole sbBase inpBase sNearHole).1).1.slots.getD 0
        freshSlot).deathTimer < 0 ∧
    (((tick opsSqrt9 cfgHole sbBase inpBase sNearHole).1.slots.getD 0
        freshSlot).posX * ((tick opsSqrt9 cfgHole sbBase inpBase
        sNearHole).1.slots.getD 0 freshSlot).posX +
      ((tick opsSqrt9 cfgHole sbBase inpBase sNearHole).1.slots.getD 0
        freshSlot).posY * ((tick opsSqrt9 cfgHole sbBase inpBase
        sNearHole).1.slots.getD 0 freshSlot).posY) <
    (((tick opsSqrt9 cfgHole sbBase inpBase
        (tick opsSqrt9 cfgHole sbBase inpBase sNearHole).1).1.slots.getD 0
        freshSlot).posX * ((tick opsSqrt9 cfgHole sbBase inpBase
        (tick opsSqrt9 cfgHole sbBase inpBase sNearHole).1).1.slots.getD 0
        freshSlot).posX +
      ((tick opsSqrt9 cfgHole sbBase inpBase
        (tick opsSqrt9 cfgHole sbBase inpBase sNearHole).1).1.slots.getD 0
        freshSlot).posY * ((tick opsSqrt9 cfgHole sbBase inpBase
        (tick opsSqrt9 cfgHole sbBase inpBase sNearHole).1).1.slots.getD 0
        freshSlot).posY) := by
  with_unfolding_all decide

set_option maxHeartbeats 1000000 in
/-- C9 (confirmed): a Ghost agent's whole per-tick update is unchanged when
the level's obstacle list is removed, so a Ghost receives no black-hole
gravity or pulsar push, is never killed by any obstacle kind, and never
increments a black hole's mass counter. -/
theorem C9_ghost_skips_obstacles (env : LoopEnv) (slotsNow : List Slot)
    (titans : List ℕ) (a : Slot) (masses : List ℚ) (k : ℕ)
    (h : a.trait = TRAIT_GHOST) :
    agentTick env slotsNow titans a masses k =
      agentTick { env with cfg := { env.cfg with obstaclePos := none } }
        slotsNow titans a masses k := by
  have hOb : ∀ (x y vx vy : ℚ) (sl : Slot) (ms : List ℚ),
      obstacleStep { env with cfg := { env.cfg with obstaclePos := none } }
        a.trait x y vx vy sl ms = obstacleStep env a.trait x y vx vy sl ms := by
    intro x y vx vy sl ms
    simp [obstacleStep, h]
  have hBossEq : ∀ (x y : ℚ),
      bossKills { env with cfg := { env.cfg with obstaclePos := none } } x y =
        bossKills env x y := fun _ _ => rfl
  have hPathEq : ∀ (t : ℤ) (ag w x y vx vy : ℚ) (kk : ℕ),
      pathStep { env with cfg := { env.cfg with obstaclePos := none } } t ag w x y vx vy kk =
        pathStep env t ag w x y vx vy kk := fun _ _ _ _ _ _ _ _ => rfl
  have hWallEq : ∀ (x y vx vy : ℚ) (sl : Slot) (kk : ℕ),
      wallStep { env with cfg := { env.cfg with obstaclePos := none } } x y vx vy sl kk =
        wallStep env x y vx vy sl kk := fun _ _ _ _ _ _ => rfl
  have hPortalEq : ∀ (x y vx vy : ℚ) (sl : Slot),
      portalStep { env with cfg := { env.cfg with obstaclePos := none } } x y vx vy sl =
        portalStep env x y vx vy sl := fun _ _ _ _ _ => rfl
  have hIntegEq : ∀ (t : ℤ) (ag vx vy : ℚ) (sl : Slot),
      integrateStep { env with cfg := { env.cfg with obstaclePos := none } } t ag vx vy sl =
        integrateStep env t ag vx vy sl := fun _ _ _ _ _ => rfl
  by_cases ht : a.teleportTimer > 0
  · simp only [agentTick, if_pos ht, hOb, hBossEq, hPathEq, hWallEq, hPortalEq,
      hIntegEq]
  · simp only [agentTick, if_neg ht, hOb, hBossEq, hPathEq, hWallEq, hPortalEq,
      hIntegEq]

theorem C9_ghost_skips_obstacles_witness :
    agentTick envHole [] [] { slotAtGoal with trait := TRAIT_GHOST } [] 0 =
      agentTick { envHole with cfg := { envHole.cfg with obstaclePos := none } }
        [] [] { slotAtGoal with trait := TRAIT_GHOST } [] 0 :=
  C9_ghost_skips_obstacles envHole [] [] { slotAtGoal with trait := TRAIT_GHOST }
    [] 0 rfl

/-- C3 (confirmed): a live agent that reaches the goal check inside the
capture radius is, when the level requires charging and the agent is not
charged, marked Exploding (death timer 1) and not captured; otherwise its
slot is freed (alive flag cleared, timer still zero) and exactly one capture
is reported for it; the mass vector is untouched either way. -/
theorem C3_goal_capture (env : LoopEnv) (slotsNow : List Slot) (titans : List ℕ)
    (a0 : Slot) (masses0 : List ℚ) (k0 : ℕ)
    (hLife : a0.life = 1)
    (hTimer : a0.deathTimer = 0)
    (hAge : a0.age + env.dt * 0.08 ≤ 1.2)
    (hChargers : env.cfg.chargers = none)
    (hBoss : env.checkBoss = false)
    (hAnoms : env.anomalies = [])
    (hObs : env.cfg.obstaclePos = none)
    (hWalls : env.cfg.walls = none)
    (hPortals : env.cfg.portals = none)
    (hGoal : (env.cfg.targetX - a0.posX) * (env.cfg.targetX - a0.posX) +
        (env.cfg.targetY - a0.posY) * (env.cfg.targetY - a0.posY) <
        env.cfg.targetRadius * env.cfg.targetRadius) :
    ((env.cfg.conversionRequired = some true ∧ a0.charge = 0) →
      (agentTick env slotsNow titans a0 masses0 k0).a.deathTimer = 1.0 ∧
      (agentTick env slotsNow titans a0 masses0 k0).a.life = 1 ∧
      (agentTick env slotsNow titans a0 masses0 k0).collected = false) ∧
    (¬(env.cfg.conversionRequired = some true ∧ a0.charge = 0) →
      (agentTick env slotsNow titans a0 masses0 k0).a.life = 0 ∧
      (agentTick env slotsNow titans a0 masses0 k0).a.deathTimer = 0 ∧
      (agentTick env slotsNow titans a0 masses0 k0).collected = true) ∧
    (agentTick env slotsNow titans a0 masses0 k0).masses = masses0 := by
  have hAge2 : ¬(a0.age + env.dt * 0.08 > 1.2) := not_lt.mpr hAge
  have hnboss : ¬(env.checkBoss = true ∧ bossKills env a0.posX a0.posY = true) := by
    rw [hBoss]
    rintro ⟨hc, -⟩
    exact Bool.false_ne_true hc
  refine ⟨fun hconv => ?_, fun hconv => ?_, ?_⟩
  · by_cases ht : a0.teleportTimer > 0
    · simp [agentTick, if_pos ht, hTimer, hChargers, hAnoms, hObs, hWalls,
        hPortals, anomalyStep, obstacleStep, wallStep, portalStep,
        if_neg hAge2, if_neg hnboss, if_pos hGoal, hconv.1, hconv.2, hLife]
    · simp [agentTick, if_neg ht, hTimer, hChargers, hAnoms, hObs, hWalls,
        hPortals, anomalyStep, obstacleStep, wallStep, portalStep,
        if_neg hAge2, if_neg hnboss, if_pos hGoal, hconv.1, hconv.2, hLife]
  · by_cases ht : a0.teleportTimer > 0
    · simp [agentTick, if_pos ht, hTimer, hChargers, hAnoms, hObs, hWalls,
        hPortals, anomalyStep, obstacleStep, wallStep, portalStep,
        if_neg hAge2, if_neg hnboss, if_pos hGoal, if_neg hconv]
    · simp [agentTick, if_neg ht, hTimer, hChargers, hAnoms, hObs, hWalls,
        hPortals, anomalyStep, obstacleStep, wallStep, portalStep,
        if_neg hAge2, if_neg hnboss, if_pos hGoal, if_neg hconv]
  · by_cases hconv : env.cfg.conversionRequired = some true ∧ a0.charge = 0
    · by_cases ht : a0.teleportTimer > 0
      · simp [agentTick, if_pos ht, hTimer, hChargers, hAnoms, hObs, hWalls,
          hPortals, anomalyStep, obstacleStep, wallStep, portalStep,
          if_neg hAge2, if_neg hnboss, if_pos hGoal, hconv.1, hconv.2]
      · simp [agentTick, if_neg ht, hTimer, hChargers, hAnoms, hObs, hWalls,
          hPortals, anomalyStep, obstacleStep, wallStep, portalStep,
          if_neg hAge2, if_neg hnboss, if_pos hGoal, hconv.1, hconv.2]
    · by_cases ht : a0.teleportTimer > 0
      · simp [agentTick, if_pos ht, hTimer, hChargers, hAnoms, hObs, hWalls,
          hPortals, anomalyStep, obstacleStep, wallStep, portalStep,
          if_neg hAge2, if_neg hnboss, if_pos hGoal, if_neg hconv]
      · simp [agentTick, if_neg ht, hTimer, hChargers, hAnoms, hObs, hWalls,
          hPortals, anomalyStep, obstacleStep, wallStep, portalStep,
          if_neg hAge2, if_neg hnboss, if_pos hGoal, if_neg hconv]

theorem C3_goal_capture_witness :
    (¬(envPlain.cfg.conversionRequired = some true ∧ slotAtGoal.charge = 0) →
      (agentTick envPlain [] [] slotAtGoal [] 0).a.life = 0 ∧
      (agentTick envPlain [] [] slotAtGoal [] 0).a.deathTimer = 0 ∧
      (agentTick envPlain [] [] slotAtGoal [] 0).collected = true) ∧
    ¬(envPlain.cfg.conversionRequired = some true ∧ slotAtGoal.charge = 0) :=
  ⟨(C3_goal_capture envPlain [] [] slotAtGoal [] 0 rfl rfl
      (by with_unfolding_all decide) rfl rfl rfl rfl rfl rfl
      (by with_unfolding_all decide)).2.1,
   by simp [cfgPlain, envPlain]⟩

theorem mergeBest_cons (best : Option (ℕ × ℕ × ℚ)) (c : ℕ × ℕ × ℚ)
    (L : List (ℕ × ℕ × ℚ)) :
    mergeBest best (firstMinCand (c :: L)) =
      mergeBest (stepBest best c) (firstMinCand L) := by
  cases best with
  | none =>
    cases hL : firstMinCand L with
    | none => simp [firstMinCand, hL, mergeBest, stepBest]
    | some m =>
      simp only [firstMinCand, hL, stepBest]
      by_cases h1 : c.2.2 ≤ m.2.2
      · rw [if_pos h1]
        simp only [mergeBest]
        rw [if_neg (not_lt.mpr h1)]
      · rw [if_neg h1]
        simp only [mergeBest]
        rw [if_pos (not_le.mp h1)]
  | some b =>
    cases hL : firstMinCand L with
    | none => simp [firstMinCand, hL, mergeBest, stepBest]
    | some m =>
      simp only [firstMinCand, hL, stepBest]
      by_cases h1 : c.2.2 ≤ m.2.2
      · rw [if_pos h1]
        by_cases h2 : c.2.2 < b.2.2
        · simp only [mergeBest, if_pos h2]
          rw [if_neg (not_lt.mpr h1)]
        · simp only [mergeBest, if_neg h2]
          rw [if_neg (not_lt.mpr (le_trans (not_lt.mp h2) h1))]
      · rw [if_neg h1]
        by_cases h2 : c.2.2 < b.2.2
        · simp only [mergeBest, if_pos h2]
          have hmc : m.2.2 < c.2.2 := not_le.mp h1
          rw [if_pos (lt_trans hmc h2), if_pos hmc]
        · simp only [mergeBest, if_neg h2]

theorem mergeBest_append (best : Option (ℕ × ℕ × ℚ)) :
    ∀ (L1 L2 : List (ℕ × ℕ × ℚ)),
      mergeBest best (firstMinCand (L1 ++ L2)) =
        mergeBest (mergeBest best (firstMinCand L1)) (firstMinCand L2) := by
  intro L1
  induction L1 generalizing best with
  | nil =>
    intro L2
    cases best <;> rfl
  | cons c L1 ih =>
    intro L2
    rw [List.cons_append, mergeBest_cons, ih, mergeBest_cons]

theorem closestScanPath_eq (x y : ℚ) (pi : ℕ) :
    ∀ (l : List (ℚ × ℚ)) (pIdx : ℕ) (best : Option (ℕ × ℕ × ℚ)),
      closestScanPath x y pi l pIdx best =
        mergeBest best (firstMinCand (scanCands x y pi l pIdx))
  | [], pIdx, best => by cases best <;> rfl
  | [p], pIdx, best => by
    cases best with
    | none => rfl
    | some b =>
      simp only [closestScanPath, scanCands, firstMinCand, mergeBest, stepBest,
        decide_eq_true_eq]
  | p :: q :: rest, pIdx, best => by
    have ih := closestScanPath_eq x y pi rest (pIdx + 2)
    simp only [closestScanPath, scanCands]
    rw [mergeBest_cons, ih]
    congr 1
    cases best with
    | none => rfl
    | some b => simp [stepBest]

theorem closestPathScan_eq (x y : ℚ) :
    ∀ (ps : List (List (ℚ × ℚ))) (pathIdx : ℕ) (best : Option (ℕ × ℕ × ℚ)),
      closestPathScan x y ps pathIdx best =
        mergeBest best (firstMinCand (allCands x y ps pathIdx))
  | [], pathIdx, best => by cases best <;> rfl
  | path :: rest, pathIdx, best => by
    have ih := closestPathScan_eq x y rest (pathIdx + 1)
    simp only [closestPathScan, allCands]
    by_cases hlen : path.length < 2
    · rw [if_pos hlen, if_pos hlen, ih]
      simp
    · rw [if_neg hlen, if_neg hlen, closestScanPath_eq, ih, mergeBest_append]

/-- C7 (amended): the forward scan of the path-attraction step computes
exactly the first minimum of the sampled candidates in draw order: the
nearest sampled polyline point wins, and on ties the earliest-added polyline
(and within it the earliest sampled point) takes precedence, since a later
candidate replaces the running best only when strictly closer.  (The
part_004 variant iterates the polylines backwards, so there the most
recently drawn polyline takes precedence instead.) -/
theorem C7_path_tie_first_wins (x y : ℚ) (paths : List (List (ℚ × ℚ))) :
    closestPathPoint x y paths = firstMinCand (allCands x y paths 0) := by
  unfold closestPathPoint
  rw [closestPathScan_eq]
  cases h : firstMinCand (allCands x y paths 0) <;> simp [mergeBest, h]

/-- C7 counterexample: an agent at the origin with two drawn polylines whose
nearest sampled points are both at squared distance 1; the scan returns the
point of polyline 0 (the earliest), not polyline 1, so the later-added
polyline does not take precedence on the tie. -/
theorem C7_counterexample :
    closestPathPoint 0 0 [[(1, 0), (2, 0)], [(-1, 0), (-2, 0)]] = some (0, 0, 1) ∧
    ((0 : ℚ) - (-1)) * ((0 : ℚ) - (-1)) + ((0 : ℚ) - 0) * ((0 : ℚ) - 0) = 1 ∧
    closestPathPoint 0 0 [[(1, 0), (2, 0)], [(-1, 0), (-2, 0)]] ≠ some (1, 0, 1) := by
  with_unfolding_all decide

theorem tickMain_shape (M : MathOps) (cfg : LevelConfig) (sb : SandboxSettings)
    (inp : TickInput) (s : SimState) :
    ∃ sl ms f fe ae c,
      tickMain M cfg sb inp s = tickReport cfg s sl ms f fe ae c :=
  ⟨_, _, _, _, _, _, rfl⟩

theorem tickReport_collected_mono (cfg : LevelConfig) (s : SimState)
    (sl : List Slot) (ms : List ℚ) (f : ℚ) (fe : Option ℚ) (ae : Option ℕ)
    (c : ℕ) :
    s.collected ≤ (tickReport cfg s sl ms f fe ae c).1.collected := by
  unfold tickReport
  split_ifs <;> simp

theorem tickReport_win_char (cfg : LevelConfig) (s : SimState)
    (sl : List Slot) (ms : List ℚ) (f : ℚ) (fe : Option ℚ) (ae : Option ℕ)
    (c : ℕ) (hw : s.hasWon = false) (hcl : s.collected < cfg.requiredCount) :
    ((tickReport cfg s sl ms f fe ae c).1.hasWon = true ↔
      cfg.requiredCount ≤ (tickReport cfg s sl ms f fe ae c).1.collected) ∧
    ((tickReport cfg s sl ms f fe ae c).2.levelComplete = true ↔
      (cfg.requiredCount ≤ (tickReport cfg s sl ms f fe ae c).1.collected ∧
        s.collected < cfg.requiredCount)) := by
  unfold tickReport
  split_ifs <;> simp_all <;> omega

theorem tickReport_sets_hasWon (cfg : LevelConfig) (s : SimState)
    (sl : List Slot) (ms : List ℚ) (f : ℚ) (fe : Option ℚ) (ae : Option ℕ)
    (c : ℕ) :
    (tickReport cfg s sl ms f fe ae c).2.levelComplete = true →
      (tickReport cfg s sl ms f fe ae c).1.hasWon = true := by
  unfold tickReport
  split_ifs <;> simp_all

theorem tick_hasWon_noop (M : MathOps) (cfg : LevelConfig) (sb : SandboxSettings)
    (inp : TickInput) (s : SimState) (h : s.hasWon = true) :
    tick M cfg sb inp s = (s, noEvents) := by
  unfold tick
  by_cases h1 : s.activeLevelId ≠ cfg.id
  · rw [if_pos h1]
  · rw [if_neg h1, if_pos h]

theorem tick_collected_mono (M : MathOps) (cfg : LevelConfig)
    (sb : SandboxSettings) (inp : TickInput) (s : SimState) :
    s.collected ≤ (tick M cfg sb inp s).1.collected := by
  unfold tick
  split_ifs
  · exact le_refl _
  · exact le_refl _
  · exact le_refl _
  · exact le_refl _
  · exact le_refl _
  · obtain ⟨sl, ms, f, fe, ae, c, heq⟩ := tickMain_shape M cfg sb inp s
    rw [heq]
    exact tickReport_collected_mono cfg s sl ms f fe ae c

theorem tick_win_char (M : MathOps) (cfg : LevelConfig) (sb : SandboxSettings)
    (inp : TickInput) (s : SimState) (hreq : 1 ≤ cfg.requiredCount)
    (hInv : s.hasWon = true ↔ cfg.requiredCount ≤ s.collected) :
    ((tick M cfg sb inp s).1.hasWon = true ↔
      cfg.requiredCount ≤ (tick M cfg sb inp s).1.collected) ∧
    ((tick M cfg sb inp s).2.levelComplete = true ↔
      (cfg.requiredCount ≤ (tick M cfg sb inp s).1.collected ∧
        s.collected < cfg.requiredCount)) := by
  unfold tick
  split_ifs with h1 h2 h3 h4 h5
  · exact ⟨hInv, by simp [noEvents]⟩
  · exact ⟨hInv, by simp [noEvents]⟩
  · exact ⟨hInv, by simp [noEvents]⟩
  · exact ⟨hInv, by simp [noEvents]⟩
  · exact ⟨hInv, by simp [noEvents]⟩
  · have hw : s.hasWon = false := by
      cases hb : s.hasWon
      · rfl
      · exact absurd hb h2
    have hcl : s.collected < cfg.requiredCount := by
      rcases Nat.lt_or_ge s.collected cfg.requiredCount with hc | hc
      · exact hc
      · exact absurd (hInv.mpr hc) (by simp [hw])
    obtain ⟨sl, ms, f, fe, ae, c, heq⟩ := tickMain_shape M cfg sb inp s
    rw [heq]
    exact tickReport_win_char cfg s sl ms f fe ae c hw hcl

theorem tick_sets_hasWon (M : MathOps) (cfg : LevelConfig) (sb : SandboxSettings)
    (inp : TickInput) (s : SimState) :
    (tick M cfg sb inp s).2.levelComplete = true →
      (tick M cfg sb inp s).1.hasWon = true := by
  unfold tick
  split_ifs with h1 h2 h3 h4 h5
  · simp [noEvents]
  · simp [noEvents]
  · simp [noEvents]
  · simp [noEvents]
  · simp [noEvents]
  · obtain ⟨sl, ms, f, fe, ae, c, heq⟩ := tickMain_shape M cfg sb inp s
    rw [heq]
    exact tickReport_sets_hasWon cfg s sl ms f fe ae c

theorem stateAt_inv (M : MathOps) (cfg : LevelConfig) (sb : SandboxSettings)
    (inps : ℕ → TickInput) (cap : ℕ) (hreq : 1 ≤ cfg.requiredCount) :
    ∀ n, ((stateAt M cfg sb inps (resetState cfg cap) n).hasWon = true ↔
      cfg.requiredCount ≤ (stateAt M cfg sb inps (resetState cfg cap) n).collected)
  | 0 => by
    simp only [stateAt, resetState]
    constructor
    · intro h
      exact absurd h (by simp)
    · intro h
      omega
  | n + 1 =>
    (tick_win_char M cfg sb (inps n) _ hreq
      (stateAt_inv M cfg sb inps cap hreq n)).1

theorem stateAt_mono (M : MathOps) (cfg : LevelConfig) (sb : SandboxSettings)
    (inps : ℕ → TickInput) (s0 : SimState) (a : ℕ) :
    ∀ b, a ≤ b →
      (stateAt M cfg sb inps s0 a).collected ≤
        (stateAt M cfg sb inps s0 b).collected
  | 0, h => by simp_all
  | b + 1, h => by
    rcases Nat.lt_or_ge a (b + 1) with hab | hab
    · exact le_trans (stateAt_mono M cfg sb inps s0 a b (by omega))
        (tick_collected_mono M cfg sb (inps b) _)
    · have : a = b + 1 := by omega
      rw [this]

/-- C4 (confirmed): along any trace from the reset state of a level that
requires at least one capture, the level-complete callback fires in tick n
exactly when that tick makes the cumulative capture count reach the required
count (it was below before the tick and at least the requirement after), and
it fires in at most one tick of the trace. -/
theorem C4_level_complete_exactly_once (M : MathOps) (cfg : LevelConfig)
    (sb : SandboxSettings) (inps : ℕ → TickInput) (cap : ℕ)
    (hreq : 1 ≤ cfg.requiredCount) :
    (∀ n, (eventsAt M cfg sb inps (resetState cfg cap) n).levelComplete = true ↔
      (cfg.requiredCount ≤
          (stateAt M cfg sb inps (resetState cfg cap) (n + 1)).collected ∧
        (stateAt M cfg sb inps (resetState cfg cap) n).collected <
          cfg.requiredCount)) ∧
    (∀ n m, (eventsAt M cfg sb inps (resetState cfg cap) n).levelComplete = true →
      (eventsAt M cfg sb inps (resetState cfg cap) m).levelComplete = true →
      n = m) := by
  have hchar : ∀ n,
      (eventsAt M cfg sb inps (resetState cfg cap) n).levelComplete = true ↔
      (cfg.requiredCount ≤
          (stateAt M cfg sb inps (resetState cfg cap) (n + 1)).collected ∧
        (stateAt M cfg sb inps (resetState cfg cap) n).collected <
          cfg.requiredCount) := by
    intro n
    exact (tick_win_char M cfg sb (inps n) _ hreq
      (stateAt_inv M cfg sb inps cap hreq n)).2
  refine ⟨hchar, ?_⟩
  intro n m hn hm
  rcases (hchar n).mp hn with ⟨hn1, hn2⟩
  rcases (hchar m).mp hm with ⟨hm1, hm2⟩
  by_contra hne
  rcases Nat.lt_or_ge n m with hlt | hge
  · have := stateAt_mono M cfg sb inps (resetState cfg cap) (n + 1) m (by omega)
    omega
  · have hlt2 : m < n := by omega
    have := stateAt_mono M cfg sb inps (resetState cfg cap) (m + 1) n (by omega)
    omega

theorem C4_level_complete_exactly_once_witness :
    (∀ n, (eventsAt zeroOps cfgWin sbBase inpsBase (resetState cfgWin 1) n).levelComplete = true ↔
      (cfgWin.requiredCount ≤
          (stateAt zeroOps cfgWin sbBase inpsBase (resetState cfgWin 1) (n + 1)).collected ∧
        (stateAt zeroOps cfgWin sbBase inpsBase (resetState cfgWin 1) n).collected <
          cfgWin.requiredCount)) ∧
    (∀ n m, (eventsAt zeroOps cfgWin sbBase inpsBase (resetState cfgWin 1) n).levelComplete = true →
      (eventsAt zeroOps cfgWin sbBase inpsBase (resetState cfgWin 1) m).levelComplete = true →
      n = m) :=
  C4_level_complete_exactly_once zeroOps cfgWin sbBase inpsBase 1 (by decide)

/-- C10 (confirmed): once the level-complete callback has fired in some tick
of a trace, every later tick of the same level instance is a no-op: it
returns the state unchanged and fires no callback at all. -/
theorem C10_after_win_frozen (M : MathOps) (cfg : LevelConfig)
    (sb : SandboxSettings) (inps : ℕ → TickInput) (s0 : SimState) (n m : ℕ)
    (hfire : (eventsAt M cfg sb inps s0 n).levelComplete = true) (hm : n < m) :
    stateAt M cfg sb inps s0 (m + 1) = stateAt M cfg sb inps s0 m ∧
    eventsAt M cfg sb inps s0 m = noEvents := by
  have hwon : ∀ j, n + 1 ≤ j → (stateAt M cfg sb inps s0 j).hasWon = true := by
    intro j
    induction j with
    | zero => omega
    | succ jj ih =>
      intro hj
      rcases Nat.lt_or_ge (n + 1) (jj + 1) with hlt | hge
      · have hw := ih (by omega)
        show (tick M cfg sb (inps jj) (stateAt M cfg sb inps s0 jj)).1.hasWon = true
        rw [tick_hasWon_noop M cfg sb (inps jj) _ hw]
        exact hw
      · have : n = jj := by omega
        subst this
        exact tick_sets_hasWon M cfg sb (inps n) _ hfire
  have hw := hwon m (by omega)
  have hnoop := tick_hasWon_noop M cfg sb (inps m) _ hw
  constructor
  · show (tick M cfg sb (inps m) (stateAt M cfg sb inps s0 m)).1 = _
    rw [hnoop]
  · show (tick M cfg sb (inps m) (stateAt M cfg sb inps s0 m)).2 = noEvents
    rw [hnoop]

theorem C10_after_win_frozen_witness :
    stateAt zeroOps cfgWin sbBase inpsBase sAtGoalWin 2 =
      stateAt zeroOps cfgWin sbBase inpsBase sAtGoalWin 1 ∧
    eventsAt zeroOps cfgWin sbBase inpsBase sAtGoalWin 1 = noEvents :=
  C10_after_win_frozen zeroOps cfgWin sbBase inpsBase sAtGoalWin 0 1
    (by with_unfolding_all decide) (by decide)

end Swarm
